import Mathlib

/-!
Verification of the SKLTrading OKX spot connectors
(`src/connectors/public/private-connector-main.ts`).

The connector code is embedded shallowly: the mutable `bids`/`asks`
arrays of `OKXSpotPublicConnector` become explicit `List` state threaded
through pure step functions, JavaScript numbers obtained from `parseFloat`
on canonical decimal strings are modelled by their exact rational value,
and the external libraries (CryptoJS HMAC/Base64, `URLSearchParams`,
`JSON.stringify`, `Date`) are abstracted as function parameters, since
they are external collaborators of the connector core.
-/

namespace SKLTrading

/-- JavaScript `parseFloat` restricted to the canonical decimal strings the
venue emits (optional sign, digits, optional `.digits`), modelled by the
exact rational value of the decimal numeral.  Non-numeric garbage parses
to `0` here (JavaScript would give `NaN`; the connector only compares
parsed quantities with `> 0`, which `NaN` also fails). -/
def parseFloat (s : String) : ℚ :=
  let cs := s.toList
  let signed : ℤ × List Char :=
    match cs with
    | '-' :: r => (-1, r)
    | '+' :: r => (1, r)
    | _ => (1, cs)
  let intDigits := signed.2.takeWhile Char.isDigit
  let rest := signed.2.dropWhile Char.isDigit
  let fracDigits :=
    match rest with
    | '.' :: r => r.takeWhile Char.isDigit
    | _ => []
  let iv : ℕ := intDigits.foldl (fun a c => a * 10 + (c.toNat - 48)) 0
  let fv : ℕ := fracDigits.foldl (fun a c => a * 10 + (c.toNat - 48)) 0
  mkRat (signed.1 * (iv * 10 ^ fracDigits.length + fv)) (10 ^ fracDigits.length)

/-- Wire-level market-depth entry, `OkxMarketDepthLevel` of the source.
The TypeScript field `side` is declared as `'bid' | 'offer'` but nothing
checks it at runtime, so it is an arbitrary string here. -/
structure OkxMarketDepthLevel where
  side : String
  event_time : String
  price_level : String
  new_quantity : String
deriving DecidableEq

/-- Market-depth event, `OkxMarketDepthEvent` of the source:
`type` is `"snapshot"` or `"update"` on the wire. -/
structure OkxMarketDepthEvent where
  type : String
  product_id : String
  updates : List OkxMarketDepthLevel
deriving DecidableEq

/-- The book state of `OKXSpotPublicConnector`: the mutable `bids` and
`asks` arrays, lifted to immutable lists. -/
structure Book where
  bids : List OkxMarketDepthLevel
  asks : List OkxMarketDepthLevel
deriving DecidableEq

/-- Numeric price of a level, as compared by the sort comparators
`parseFloat(x.price_level)` in the source. -/
def priceQ (l : OkxMarketDepthLevel) : ℚ := parseFloat l.price_level

/-- Comparator order used on the bid side: the source sorts with
`(a, b) => parseFloat(b.price_level) - parseFloat(a.price_level)`,
i.e. descending by numeric price. -/
def bidOrder (a b : OkxMarketDepthLevel) : Prop := priceQ b ≤ priceQ a

/-- Comparator order used on the ask side: the source sorts with
`(a, b) => parseFloat(a.price_level) - parseFloat(b.price_level)`,
i.e. ascending by numeric price. -/
def askOrder (a b : OkxMarketDepthLevel) : Prop := priceQ a ≤ priceQ b

instance : DecidableRel bidOrder := fun a b =>
  inferInstanceAs (Decidable (priceQ b ≤ priceQ a))

instance : DecidableRel askOrder := fun a b =>
  inferInstanceAs (Decidable (priceQ a ≤ priceQ b))

instance : IsTotal OkxMarketDepthLevel bidOrder where
  total a b := le_total (priceQ b) (priceQ a)

instance : IsTrans OkxMarketDepthLevel bidOrder where
  trans _ _ _ hab hbc := le_trans hbc hab

instance : IsTotal OkxMarketDepthLevel askOrder where
  total a b := le_total (priceQ a) (priceQ b)

instance : IsTrans OkxMarketDepthLevel askOrder where
  trans _ _ _ hab hbc := le_trans hab hbc

/-- One iteration of the two `forEach` bodies of
`OKXSpotPublicConnector.updateBook` (source lines 249-259 and 262-273),
which are identical except for the sort comparator `r`:
`findIndex` by exact `price_level` string equality; if
`new_quantity === "0"` and an entry was found, `splice` it out; else if
`parseFloat(new_quantity) > 0` and no entry was found, `unshift` the
level and re-sort.  JavaScript `Array.prototype.sort` (stable) with a
numeric-difference comparator is modelled by the stable
`List.insertionSort` on the corresponding total preorder. -/
def sideStep (r : OkxMarketDepthLevel → OkxMarketDepthLevel → Prop)
    [DecidableRel r] (side : List OkxMarketDepthLevel)
    (u : OkxMarketDepthLevel) : List OkxMarketDepthLevel :=
  match side.findIdx? (fun l => l.price_level == u.price_level) with
  | some i => if u.new_quantity == "0" then side.eraseIdx i else side
  | none =>
      if parseFloat u.new_quantity > 0 then
        List.insertionSort r (u :: side)
      else side

/-- The `bidsList.forEach` body of `updateBook` (source lines 249-259):
insert re-sorts descending by numeric price. -/
def bidStep : List OkxMarketDepthLevel → OkxMarketDepthLevel →
    List OkxMarketDepthLevel :=
  sideStep bidOrder

/-- The `asksList.forEach` body of `updateBook` (source lines 262-273):
insert re-sorts ascending by numeric price. -/
def askStep : List OkxMarketDepthLevel → OkxMarketDepthLevel →
    List OkxMarketDepthLevel :=
  sideStep askOrder

/-- `OKXSpotPublicConnector.updateBook` (source lines 236-275): the
event's updates are filtered into `bidsList` (`side === "bid"`) and
`asksList` (`side === "offer"`); a `"snapshot"` event replaces both sides
verbatim, any other event applies the per-level update steps in order. -/
def updateBook (b : Book) (e : OkxMarketDepthEvent) : Book :=
  let bidsList := e.updates.filter (fun u => u.side == "bid")
  let asksList := e.updates.filter (fun u => u.side == "offer")
  if e.type == "snapshot" then
    { bids := bidsList, asks := asksList }
  else
    { bids := bidsList.foldl bidStep b.bids,
      asks := asksList.foldl askStep b.asks }

/-- Normalized top-of-book event produced by
`OKXSpotPublicConnector.createTopOfBook`.  The numeric fields hold the
`parseFloat` values of the head levels. -/
structure TopOfBook where
  symbol : String
  connectorType : String
  event : String
  timestamp : Int
  askPrice : ℚ
  askSize : ℚ
  bidPrice : ℚ
  bidSize : ℚ
deriving DecidableEq

/-- `OKXSpotPublicConnector.createTopOfBook` (source lines 277-292):
returns `null` when `bids.length === 0 || asks.length === 0`, otherwise
builds the event from `bids[0]` and `asks[0]`.  The connector's
`sklSymbol` field and the external `new Date(ts).getTime()` conversion are
passed in as parameters. -/
def createTopOfBook (sklSymbol : String) (dateGetTime : String → Int)
    (b : Book) (timestamp : String) : Option TopOfBook :=
  match b.bids, b.asks with
  | [], _ => none
  | _ :: _, [] => none
  | lb :: _, la :: _ =>
      some { symbol := sklSymbol
             connectorType := "Okx"
             event := "TopOfBook"
             timestamp := dateGetTime timestamp
             askPrice := parseFloat la.price_level
             askSize := parseFloat la.new_quantity
             bidPrice := parseFloat lb.price_level
             bidSize := parseFloat lb.new_quantity }

/-- Credential record supplied at construction of the private connector. -/
structure Credential where
  key : String
  secret : String
  passphrase : String
deriving DecidableEq

/-- REST base URL of both connectors (source: `restUrl`). -/
def restUrl : String := "http://www.okx.com"

/-- Signed-request header set built by the private connector's REST
helpers (`OK-ACCESS-KEY`, `OK-ACCESS-SIGN`, `OK-ACCESS-TIMESTAMP`,
`OK-ACCESS-PASSPHRASE`). -/
structure OkxRestHeaders where
  accessKey : String
  accessSign : String
  accessTimestamp : String
  accessPassphrase : String
deriving DecidableEq

/-- Signature formula as worded by the spec:
`Base64(HMAC-SHA256(secret, timestamp ++ method ++ path ++ body))`.
This definition follows the spec's words (for comparison against the
source-derived signers below); `hmacSHA256 msg key` and `base64` stand for
the external CryptoJS primitives, with the digest as a byte list. -/
def specSignature (hmacSHA256 : String → String → List ℕ)
    (base64 : List ℕ → String)
    (secret timestamp method path body : String) : String :=
  base64 (hmacSHA256 (timestamp ++ method ++ path ++ body) secret)

/-- `OkxSpotPrivateConnector.postRequest` (source lines 639-663), as the
triple (headers, request URL, serialized body).  The source computes
`requestPath = "/api/v5" + endpoint`, `body = JSON.stringify(params)`,
`sign = Base64(HmacSHA256(timestamp + "POST" + requestPath + body, secret))`
and posts `body` to `restUrl + requestPath` with the signed headers.
`stringify` abstracts `JSON.stringify`, `hmacSHA256`/`base64` the CryptoJS
primitives, and `timestamp` the stringified `Date.now() / 1000`. -/
def postRequest {P : Type} (hmacSHA256 : String → String → List ℕ)
    (base64 : List ℕ → String) (stringify : P → String)
    (cred : Credential) (timestamp : String) (endpoint : String)
    (params : P) : OkxRestHeaders × String × String :=
  let method := "POST"
  let requestPath := "/api/v5" ++ endpoint
  let body := stringify params
  let sign := base64 (hmacSHA256 (timestamp ++ method ++ requestPath ++ body) cred.secret)
  ({ accessKey := cred.key
     accessSign := sign
     accessTimestamp := timestamp
     accessPassphrase := cred.passphrase },
   restUrl ++ requestPath, body)

/-- Signature computed by `OkxSpotPrivateConnector.authenticate` (source
lines 535-552): `Base64(HmacSHA256(timestamp + "GET" + "/users/self/verify",
secret))` — a signed message with no body component. -/
def authenticateSign (hmacSHA256 : String → String → List ℕ)
    (base64 : List ℕ → String) (cred : Credential)
    (timestamp : String) : String :=
  let method := "GET"
  let requestPath := "/users/self/verify"
  base64 (hmacSHA256 (timestamp ++ method ++ requestPath) cred.secret)

/-- `OkxSpotPrivateConnector.getRequest` (source lines 689-714), as the
pair (headers, request URL).  Faithful to the source's statement order:
`queryString` is initialised to the empty string, the signature is
computed over `timestamp + "GET" + requestPath + queryString` while
`queryString` is still empty, and only afterwards is `queryString`
reassigned from `params` (when non-empty) and appended to the URL.
`encodeParams` abstracts `new URLSearchParams(params).toString()`. -/
def getRequest (hmacSHA256 : String → String → List ℕ)
    (base64 : List ℕ → String)
    (encodeParams : List (String × String) → String)
    (cred : Credential) (timestamp : String) (route : String)
    (params : List (String × String)) : OkxRestHeaders × String :=
  let queryString := ""
  let method := "GET"
  let requestPath := "/api/v5" ++ route
  let sign := base64 (hmacSHA256 (timestamp ++ method ++ requestPath ++ queryString) cred.secret)
  let queryString := if params.length > 0 then "?" ++ encodeParams params else ""
  ({ accessKey := cred.key
     accessSign := sign
     accessTimestamp := timestamp
     accessPassphrase := cred.passphrase },
   restUrl ++ requestPath ++ queryString)

/-- `OkxSpotPrivateConnector.chunkArray` (source lines 631-637):
`for (let i = 0; i < array.length; i += chunkSize) push(slice(i, i + chunkSize))`.
For `n ≥ 1` each chunk is `take n` of the remainder and the loop advances
by `drop n`; the connector only ever calls it with chunk size 20.
(JavaScript would loop forever on `chunkSize = 0`; this model then yields
singleton chunks, a case the source never exercises.) -/
def chunkArray {α : Type} (n : ℕ) : List α → List (List α)
  | [] => []
  | x :: xs => (x :: xs.take (n - 1)) :: chunkArray n (xs.drop (n - 1))
termination_by l => l.length
decreasing_by
  simp only [List.length_drop, List.length_cons]
  omega

/-- Lifecycle state of one public-connector session, abstracting the
JavaScript event loop: `reconnectScheduled` records that the close
handler's `setTimeout(() => self.connect(onMessage), 1000)` is pending,
`stopped` that `stop()` has run, `connectCalls` counts invocations of
`connect()`. -/
structure PubSession where
  reconnectScheduled : Bool
  stopped : Bool
  connectCalls : ℕ
deriving DecidableEq

/-- Events acting on a public-connector session: the transport `close`
event, a call to `stop()`, and the firing of the scheduled reconnect
timer. -/
inductive PubStep
  | closeEvent
  | stopCall
  | reconnectTimerFire
deriving DecidableEq

/-- Transition function of the public connector session, read off the
source: the `close` handler (lines 136-142) schedules the 1-second
reconnect `setTimeout` unconditionally; `stop()` (lines 174-181) sends the
unsubscribe and closes the transport but touches no timer — in particular
it does not clear a pending reconnect; a pending timer that fires invokes
`connect()`. -/
def pubStepFn (s : PubSession) : PubStep → PubSession
  | .closeEvent => { s with reconnectScheduled := true }
  | .stopCall => { s with stopped := true }
  | .reconnectTimerFire =>
      if s.reconnectScheduled then
        { s with reconnectScheduled := false, connectCalls := s.connectCalls + 1 }
      else s

/-- Runs a public-connector session from a state through a list of events. -/
def pubRun (s : PubSession) (steps : List PubStep) : PubSession :=
  steps.foldl pubStepFn s

/-- Initial public-connector session state: no timer pending, not
stopped, no connect counted yet. -/
def pubInit : PubSession :=
  { reconnectScheduled := false, stopped := false, connectCalls := 0 }

/-- Control messages the private connector sends on its websocket that
matter for the authentication ordering: the signed `login` message sent by
`authenticate()` and the private-channel `subscribe` message sent by
`subscribeToPrivateChannels()`. -/
inductive PrivMsg
  | login
  | subscribeChannels
deriving DecidableEq

/-- State of one private-connector session: whether an authentication
success signal has been received, and the messages sent so far, in
order. -/
structure PrivSession where
  authSucceeded : Bool
  sent : List PrivMsg
deriving DecidableEq

/-- Events acting on a private-connector session: the transport `open`
event and the venue's login-success response. -/
inductive PrivEvent
  | transportOpen
  | loginSuccess
deriving DecidableEq

/-- Transition function of the private connector session, read off the
source: the `open` handler (lines 499-503) synchronously calls
`startPingInterval(); authenticate(); subscribeToPrivateChannels();` — so
it sends the login message and then immediately the private subscribe
message, without waiting for any inbound event in between; a
login-success response merely records that authentication succeeded. -/
def privStepFn (s : PrivSession) : PrivEvent → PrivSession
  | .transportOpen => { s with sent := s.sent ++ [.login, .subscribeChannels] }
  | .loginSuccess => { s with authSucceeded := true }

/-- Runs a private-connector session from a state through a list of
events. -/
def privRun (s : PrivSession) (events : List PrivEvent) : PrivSession :=
  events.foldl privStepFn s

/-- Initial private-connector session state: not authenticated, nothing
sent. -/
def privInit : PrivSession := { authSucceeded := false, sent := [] }

/-- Strictly descending by numeric price — the bid-side ordering invariant
of the spec. -/
def StrictDesc (l : List OkxMarketDepthLevel) : Prop :=
  l.Pairwise (fun a b => priceQ b < priceQ a)

/-- Strictly ascending by numeric price — the ask-side ordering invariant
of the spec. -/
def StrictAsc (l : List OkxMarketDepthLevel) : Prop :=
  l.Pairwise (fun a b => priceQ a < priceQ b)

/-- At most one entry per `price_level` string — the per-side uniqueness
invariant of the spec. -/
def UniquePrices (l : List OkxMarketDepthLevel) : Prop :=
  l.Pairwise (fun a b => a.price_level ≠ b.price_level)

/-- Every entry of the side draws its price string from the set `S` of
price strings occurring on the feed. -/
def PricesIn (l : List OkxMarketDepthLevel) (S : List String) : Prop :=
  ∀ x ∈ l, x.price_level ∈ S

/-- The price strings of `S` are canonical: no two distinct strings of
`S` denote the same numeric value.  (`updateBook` keys removal on exact
string identity but sorts on the parsed value, so this is needed for the
two notions of "same price" to agree.) -/
def PriceInj (S : List String) : Prop :=
  ∀ p ∈ S, ∀ q ∈ S, parseFloat p = parseFloat q → p = q

instance (l : List OkxMarketDepthLevel) : Decidable (StrictDesc l) :=
  inferInstanceAs (Decidable (l.Pairwise _))

instance (l : List OkxMarketDepthLevel) : Decidable (StrictAsc l) :=
  inferInstanceAs (Decidable (l.Pairwise _))

instance (l : List OkxMarketDepthLevel) : Decidable (UniquePrices l) :=
  inferInstanceAs (Decidable (l.Pairwise _))

instance (S : List String) : Decidable (PriceInj S) :=
  inferInstanceAs (Decidable (∀ p ∈ S, ∀ q ∈ S, parseFloat p = parseFloat q → p = q))

/-- Book-level well-formedness: strictly sorted sides whose price strings
come from the feed set `S`. -/
def BookInv (b : Book) (S : List String) : Prop :=
  StrictDesc b.bids ∧ StrictAsc b.asks ∧ PricesIn b.bids S ∧ PricesIn b.asks S

/-- `OkxSpotPrivateConnector.placeOrders` (source lines 596-629), reduced
to its data flow: each incoming order of the batch request is mapped to
its wire payload (`request.orders.map(...)`; the payload construction,
which references dev-time constants, is abstracted as `mapOrder`), and
the mapped list is chunked with `chunkArray` at `OkxMaxBatchSize = 20`. -/
def placeOrdersBatches {O M : Type} (mapOrder : O → M) (orders : List O) :
    List (List M) :=
  chunkArray 20 (orders.map mapOrder)

theorem strictDesc_uniquePrices {l : List OkxMarketDepthLevel}
    (h : StrictDesc l) : UniquePrices l := by
  refine h.imp ?_
  intro a b hlt heq
  exact absurd (congrArg parseFloat heq) (ne_of_gt hlt)

theorem strictAsc_uniquePrices {l : List OkxMarketDepthLevel}
    (h : StrictAsc l) : UniquePrices l := by
  refine h.imp ?_
  intro a b hlt heq
  exact absurd (congrArg parseFloat heq) (ne_of_lt hlt)

/-- A `sideStep` keeps the side's price strings inside the feed set. -/
theorem sideStep_pricesIn {r : OkxMarketDepthLevel → OkxMarketDepthLevel → Prop}
    [DecidableRel r] {side : List OkxMarketDepthLevel}
    {u : OkxMarketDepthLevel} {S : List String}
    (hb : PricesIn side S) (hu : u.price_level ∈ S) :
    PricesIn (sideStep r side u) S := by
  intro x hx
  unfold sideStep at hx
  rcases hfi : side.findIdx? (fun l => l.price_level == u.price_level) with _ | i <;>
    rw [hfi] at hx
  · dsimp only at hx
    split at hx
    · rcases List.mem_cons.mp ((List.mem_insertionSort r).mp hx) with rfl | hmem
      · exact hu
      · exact hb x hmem
    · exact hb x hx
  · dsimp only at hx
    split at hx
    · exact hb x ((List.eraseIdx_sublist side i).subset hx)
    · exact hb x hx

/-- A `sideStep` preserves strict sortedness in the sense of any strict
price relation `s` compatible with the sort preorder `r`, provided the
incoming level's parsed price collides with no differently-written price
already on the side. -/
theorem sideStep_pairwise {r s : OkxMarketDepthLevel → OkxMarketDepthLevel → Prop}
    [DecidableRel r] [IsTotal OkxMarketDepthLevel r]
    [IsTrans OkxMarketDepthLevel r]
    (hcompat : ∀ a b, r a b → priceQ a ≠ priceQ b → s a b)
    (hs_ne : ∀ a b, s a b → priceQ a ≠ priceQ b)
    {side : List OkxMarketDepthLevel} {u : OkxMarketDepthLevel}
    (h : side.Pairwise s)
    (hinj : ∀ l ∈ side, l.price_level ≠ u.price_level → priceQ l ≠ priceQ u) :
    (sideStep r side u).Pairwise s := by
  unfold sideStep
  rcases hfi : side.findIdx? (fun l => l.price_level == u.price_level) with _ | i <;>
    rw [hfi] <;> dsimp only
  · split
    · have hne : ∀ l ∈ side, l.price_level ≠ u.price_level := by
        intro l hl
        exact beq_eq_false_iff_ne.mp (List.findIdx?_eq_none_iff.mp hfi l hl)
      have hqne : ∀ l ∈ side, priceQ l ≠ priceQ u :=
        fun l hl => hinj l hl (hne l hl)
      have hpw : (u :: side).Pairwise (fun a b => priceQ a ≠ priceQ b) := by
        refine List.pairwise_cons.mpr ⟨fun a ha he => hqne a ha he.symm, ?_⟩
        refine h.imp ?_
        intro a b hab
        exact hs_ne a b hab
      have hsorted : (List.insertionSort r (u :: side)).Pairwise r :=
        List.sorted_insertionSort r (u :: side)
      have hpw' : (List.insertionSort r (u :: side)).Pairwise
          (fun a b => priceQ a ≠ priceQ b) :=
        ((List.perm_insertionSort r (u :: side)).pairwise_iff
          (fun hab => hab.symm)).mpr hpw
      refine (hsorted.and hpw').imp ?_
      intro a b hab
      exact hcompat a b hab.1 hab.2
    · exact h
  · split
    · exact List.Pairwise.sublist (List.eraseIdx_sublist side i) h
    · exact h

/-- Folding a list of updates through `sideStep` preserves strict
sortedness and the price-string closure, given canonical prices. -/
theorem foldl_sideStep_invariant
    {r s : OkxMarketDepthLevel → OkxMarketDepthLevel → Prop}
    [DecidableRel r] [IsTotal OkxMarketDepthLevel r]
    [IsTrans OkxMarketDepthLevel r]
    (hcompat : ∀ a b, r a b → priceQ a ≠ priceQ b → s a b)
    (hs_ne : ∀ a b, s a b → priceQ a ≠ priceQ b)
    {S : List String} (hinjS : PriceInj S) :
    ∀ (us : List OkxMarketDepthLevel) (side : List OkxMarketDepthLevel),
      side.Pairwise s → PricesIn side S → (∀ u ∈ us, u.price_level ∈ S) →
      (us.foldl (sideStep r) side).Pairwise s ∧
        PricesIn (us.foldl (sideStep r) side) S
  | [], side => fun hp hin _ => ⟨hp, hin⟩
  | u :: us, side => by
      intro hp hin hus
      have huS : u.price_level ∈ S := hus u (List.mem_cons_self u us)
      have hinj : ∀ l ∈ side, l.price_level ≠ u.price_level →
          priceQ l ≠ priceQ u := by
        intro l hl hne heq
        exact hne (hinjS l.price_level (hin l hl) u.price_level huS heq)
      have hp' := sideStep_pairwise hcompat hs_ne hp hinj
      have hin' := sideStep_pricesIn (r := r) hin huS
      exact foldl_sideStep_invariant hcompat hs_ne hinjS us (sideStep r side u)
        hp' hin' (fun v hv => hus v (List.mem_cons_of_mem u hv))

theorem bidOrder_compat (a b : OkxMarketDepthLevel) (hle : bidOrder a b)
    (hne : priceQ a ≠ priceQ b) : priceQ b < priceQ a :=
  lt_of_le_of_ne hle hne.symm

theorem askOrder_compat (a b : OkxMarketDepthLevel) (hle : askOrder a b)
    (hne : priceQ a ≠ priceQ b) : priceQ a < priceQ b :=
  lt_of_le_of_ne hle hne

theorem desc_ne (a b : OkxMarketDepthLevel) (h : priceQ b < priceQ a) :
    priceQ a ≠ priceQ b :=
  ne_of_gt h

theorem asc_ne (a b : OkxMarketDepthLevel) (h : priceQ a < priceQ b) :
    priceQ a ≠ priceQ b :=
  ne_of_lt h

/-- `updateBook` on a snapshot event replaces both sides verbatim with the
side-filtered update lists. -/
theorem updateBook_snapshot (b : Book) (e : OkxMarketDepthEvent)
    (h : e.type = "snapshot") :
    updateBook b e =
      { bids := e.updates.filter (fun u => u.side == "bid"),
        asks := e.updates.filter (fun u => u.side == "offer") } := by
  unfold updateBook
  rw [beq_iff_eq.mpr h]
  rfl

/-- Applying one non-snapshot (delta) event preserves the book
invariant, provided the event's price strings are canonical members of
`S`. -/
theorem updateBook_delta_invariant {S : List String} (hinjS : PriceInj S)
    (b : Book) (e : OkxMarketDepthEvent) (ht : e.type ≠ "snapshot")
    (hS : ∀ u ∈ e.updates, u.price_level ∈ S) (hb : BookInv b S) :
    BookInv (updateBook b e) S := by
  obtain ⟨h1, h2, h3, h4⟩ := hb
  unfold updateBook
  rw [beq_eq_false_iff_ne.mpr ht]
  dsimp only
  have hbids := foldl_sideStep_invariant (r := bidOrder)
    (s := fun a b => priceQ b < priceQ a) bidOrder_compat desc_ne hinjS
    (e.updates.filter fun u => u.side == "bid") b.bids h1 h3
    (fun u hu => hS u (List.mem_filter.mp hu).1)
  have hasks := foldl_sideStep_invariant (r := askOrder)
    (s := fun a b => priceQ a < priceQ b) askOrder_compat asc_ne hinjS
    (e.updates.filter fun u => u.side == "offer") b.asks h2 h4
    (fun u hu => hS u (List.mem_filter.mp hu).1)
  exact ⟨hbids.1, hasks.1, hbids.2, hasks.2⟩

/-- Folding any sequence of non-snapshot events through `updateBook`
preserves the book invariant. -/
theorem foldl_updateBook_invariant {S : List String} (hinjS : PriceInj S) :
    ∀ (deltas : List OkxMarketDepthEvent) (b : Book),
      (∀ d ∈ deltas, d.type ≠ "snapshot") →
      (∀ d ∈ deltas, ∀ u ∈ d.updates, u.price_level ∈ S) →
      BookInv b S → BookInv (deltas.foldl updateBook b) S
  | [], _ => fun _ _ hb => hb
  | d :: ds, b => by
      intro ht hS hb
      have hb' := updateBook_delta_invariant hinjS b d
        (ht d (List.mem_cons_self d ds)) (hS d (List.mem_cons_self d ds)) hb
      exact foldl_updateBook_invariant hinjS ds (updateBook b d)
        (fun x hx => ht x (List.mem_cons_of_mem d hx))
        (fun x hx => hS x (List.mem_cons_of_mem d hx)) hb'

/-- Concatenation of the chunks restores the input sequence. -/
theorem chunkArray_join {α : Type} (n : ℕ) :
    ∀ (l : List α), (chunkArray n l).flatten = l
  | [] => by simp [chunkArray]
  | x :: xs => by
      rw [chunkArray, List.flatten_cons, chunkArray_join n (xs.drop (n - 1))]
      simp [List.take_append_drop]
termination_by l => l.length
decreasing_by
  simp only [List.length_drop, List.length_cons]
  omega

/-- With the connector's batch limit 20, the number of chunks is
`⌈N / 20⌉`, written `(N + 19) / 20` in truncated division. -/
theorem chunkArray_length20 {α : Type} :
    ∀ (l : List α), (chunkArray 20 l).length = (l.length + 19) / 20
  | [] => by simp [chunkArray]
  | x :: xs => by
      rw [chunkArray]
      have ih := chunkArray_length20 (xs.drop (20 - 1))
      simp only [List.length_cons, List.length_drop] at ih ⊢
      omega
termination_by l => l.length
decreasing_by
  simp only [List.length_drop, List.length_cons]
  omega

/-- Every chunk produced at batch limit 20 has at most 20 entries. -/
theorem chunkArray_sizes20 {α : Type} :
    ∀ (l : List α), ∀ c ∈ chunkArray 20 l, c.length ≤ 20
  | [] => by simp [chunkArray]
  | x :: xs => by
      intro c hc
      rw [chunkArray] at hc
      rcases List.mem_cons.mp hc with rfl | h
      · simp only [List.length_cons, List.length_take]
        omega
      · exact chunkArray_sizes20 (xs.drop 19) c h
termination_by l => l.length
decreasing_by
  simp only [List.length_drop, List.length_cons]
  omega

/-- `findIndex` on a list whose first match for `p` sits after the
elements of `l1` returns the absolute index `i + l1.length`. -/
theorem findIdx?_first {α : Type} (p : α → Bool) (e : α) (he : p e = true) :
    ∀ (l1 l2 : List α) (i : ℕ), (∀ x ∈ l1, p x = false) →
      List.findIdx? p (l1 ++ e :: l2) i = some (i + l1.length)
  | [], l2, i => by
      intro _
      simp [List.findIdx?_cons, he]
  | x :: l1, l2, i => by
      intro hx
      have hxf : p x = false := hx x (List.mem_cons_self x l1)
      have ih := findIdx?_first p e he l1 l2 (i + 1)
        (fun y hy => hx y (List.mem_cons_of_mem x hy))
      rw [List.cons_append, List.findIdx?_cons, hxf]
      simp only [Bool.false_eq_true, if_false, ih, List.length_cons]
      congr 1
      omega

/-- Removing the element at index `l1.length` of `l1 ++ e :: l2` removes
exactly `e`. -/
theorem eraseIdx_append_length {α : Type} :
    ∀ (l1 : List α) (e : α) (l2 : List α),
      (l1 ++ e :: l2).eraseIdx l1.length = l1 ++ l2
  | [], _, _ => rfl
  | x :: l1, e, l2 => by
      simp only [List.cons_append, List.length_cons, List.eraseIdx_cons_succ]
      rw [eraseIdx_append_length l1 e l2]

/-- A zero-quantity update whose price is absent from the side is a
no-op for either side's step. -/
theorem sideStep_absent_zero {r : OkxMarketDepthLevel → OkxMarketDepthLevel → Prop}
    [DecidableRel r] (side : List OkxMarketDepthLevel)
    (u : OkxMarketDepthLevel) (hq : u.new_quantity = "0")
    (h : ∀ l ∈ side, l.price_level ≠ u.price_level) :
    sideStep r side u = side := by
  unfold sideStep
  rw [List.findIdx?_eq_none_iff (p := fun l => l.price_level == u.price_level) |>.mpr
    (fun x hx => beq_eq_false_iff_ne.mpr (h x hx))]
  dsimp only
  rw [hq, if_neg]
  decide

/-- A zero-quantity update whose price first occurs as `e` removes
exactly that occurrence. -/
theorem sideStep_removal {r : OkxMarketDepthLevel → OkxMarketDepthLevel → Prop}
    [DecidableRel r] (l1 : List OkxMarketDepthLevel)
    (e : OkxMarketDepthLevel) (l2 : List OkxMarketDepthLevel)
    (u : OkxMarketDepthLevel) (hq : u.new_quantity = "0")
    (hp : e.price_level = u.price_level)
    (hl1 : ∀ x ∈ l1, x.price_level ≠ u.price_level) :
    sideStep r (l1 ++ e :: l2) u = l1 ++ l2 := by
  unfold sideStep
  rw [findIdx?_first (fun l => l.price_level == u.price_level) e
    (beq_iff_eq.mpr hp) l1 l2 0
    (fun x hx => beq_eq_false_iff_ne.mpr (hl1 x hx))]
  dsimp only
  rw [if_pos (beq_iff_eq.mpr hq), Nat.zero_add, eraseIdx_append_length]

/-- C1 (counterexample): the claim fails as stated — `updateBook` copies a
snapshot's side lists verbatim, without sorting or deduplication, so a
snapshot carrying the same bid price twice yields a bid side with two
entries at one `price_level`. -/
theorem claim1_counterexample :
    ¬ UniquePrices ((updateBook ⟨[], []⟩
      ⟨"snapshot", "BTC-USD",
        [⟨"bid", "t", "100", "1"⟩, ⟨"bid", "t", "100", "7"⟩]⟩).bids) := by
  decide

/-- C1 (amended): provided the snapshot's filtered sides are already
strictly sorted (bids descending, asks ascending by numeric price) and
all price strings occurring in the snapshot and the deltas are canonical
(no two distinct strings parse to the same value), every sequence of
non-snapshot delta events applied via `updateBook` keeps each side with
at most one entry per `price_level`, bids strictly descending and asks
strictly ascending by numeric price.  The source neither sorts nor
deduplicates the snapshot itself, and removal is keyed on the exact
price string while sorting uses the parsed value, which forces the two
added hypotheses. -/
theorem claim1_book_invariant (b0 : Book) (snap : OkxMarketDepthEvent)
    (deltas : List OkxMarketDepthEvent) (S : List String)
    (hsnap : snap.type = "snapshot")
    (hdeltas : ∀ d ∈ deltas, d.type ≠ "snapshot")
    (hsb : StrictDesc (snap.updates.filter (fun u => u.side == "bid")))
    (hsa : StrictAsc (snap.updates.filter (fun u => u.side == "offer")))
    (hSsnap : ∀ u ∈ snap.updates, u.price_level ∈ S)
    (hSdeltas : ∀ d ∈ deltas, ∀ u ∈ d.updates, u.price_level ∈ S)
    (hinj : PriceInj S) :
    StrictDesc (deltas.foldl updateBook (updateBook b0 snap)).bids ∧
    StrictAsc (deltas.foldl updateBook (updateBook b0 snap)).asks ∧
    UniquePrices (deltas.foldl updateBook (updateBook b0 snap)).bids ∧
    UniquePrices (deltas.foldl updateBook (updateBook b0 snap)).asks := by
  have hinv0 : BookInv (updateBook b0 snap) S := by
    rw [updateBook_snapshot b0 snap hsnap]
    exact ⟨hsb, hsa,
      fun x hx => hSsnap x (List.mem_filter.mp hx).1,
      fun x hx => hSsnap x (List.mem_filter.mp hx).1⟩
  have hfin := foldl_updateBook_invariant hinj deltas (updateBook b0 snap)
    hdeltas hSdeltas hinv0
  exact ⟨hfin.1, hfin.2.1, strictDesc_uniquePrices hfin.1,
    strictAsc_uniquePrices hfin.2.1⟩

/-- C1 (witness): the amended invariant at a concrete run — a sorted
three-level snapshot followed by one delta inserting a bid and deleting
an ask. -/
theorem claim1_book_invariant_witness :
    StrictDesc (List.foldl updateBook (updateBook ⟨[], []⟩
        ⟨"snapshot", "BTC-USD",
          [⟨"bid", "t", "200", "1"⟩, ⟨"bid", "t", "100", "2"⟩,
           ⟨"offer", "t", "300", "2"⟩]⟩)
        [⟨"update", "BTC-USD",
          [⟨"bid", "t", "150", "3"⟩, ⟨"offer", "t", "300", "0"⟩]⟩]).bids ∧
    StrictAsc (List.foldl updateBook (updateBook ⟨[], []⟩
        ⟨"snapshot", "BTC-USD",
          [⟨"bid", "t", "200", "1"⟩, ⟨"bid", "t", "100", "2"⟩,
           ⟨"offer", "t", "300", "2"⟩]⟩)
        [⟨"update", "BTC-USD",
          [⟨"bid", "t", "150", "3"⟩, ⟨"offer", "t", "300", "0"⟩]⟩]).asks ∧
    UniquePrices (List.foldl updateBook (updateBook ⟨[], []⟩
        ⟨"snapshot", "BTC-USD",
          [⟨"bid", "t", "200", "1"⟩, ⟨"bid", "t", "100", "2"⟩,
           ⟨"offer", "t", "300", "2"⟩]⟩)
        [⟨"update", "BTC-USD",
          [⟨"bid", "t", "150", "3"⟩, ⟨"offer", "t", "300", "0"⟩]⟩]).bids ∧
    UniquePrices (List.foldl updateBook (updateBook ⟨[], []⟩
        ⟨"snapshot", "BTC-USD",
          [⟨"bid", "t", "200", "1"⟩, ⟨"bid", "t", "100", "2"⟩,
           ⟨"offer", "t", "300", "2"⟩]⟩)
        [⟨"update", "BTC-USD",
          [⟨"bid", "t", "150", "3"⟩, ⟨"offer", "t", "300", "0"⟩]⟩]).asks :=
  claim1_book_invariant ⟨[], []⟩
    ⟨"snapshot", "BTC-USD",
      [⟨"bid", "t", "200", "1"⟩, ⟨"bid", "t", "100", "2"⟩,
       ⟨"offer", "t", "300", "2"⟩]⟩
    [⟨"update", "BTC-USD",
      [⟨"bid", "t", "150", "3"⟩, ⟨"offer", "t", "300", "0"⟩]⟩]
    ["200", "100", "300", "150"]
    rfl (by decide) (by decide) (by decide) (by decide) (by decide) (by decide)

/-- C2 (code evaluation at the failing input): a delta with positive
quantity "7" at a price already present on the bid side leaves the
existing entry untouched with its old quantity "5" — `updateBook`'s delta
branch has no replace-in-place case (`new_quantity !== "0"` with a found
index matches neither branch), contradicting the spec's required
replace-in-place update. -/
theorem claim2_no_replace_in_place :
    updateBook ⟨[⟨"bid", "t", "100", "5"⟩], []⟩
        ⟨"update", "BTC-USD", [⟨"bid", "t", "100", "7"⟩]⟩
      = ⟨[⟨"bid", "t", "100", "5"⟩], []⟩ ∧
    parseFloat "7" > 0 := by
  decide

/-- C3: `createTopOfBook` returns `none` exactly when the bid side or the
ask side is empty, and once both sides are non-empty it returns the head
entry of each side (head bid price/quantity and head ask
price/quantity). -/
theorem claim3_top_of_book (sym : String) (dgt : String → Int) (b : Book)
    (ts : String) :
    (createTopOfBook sym dgt b ts = none ↔ b.bids = [] ∨ b.asks = []) ∧
    (∀ lb bs la la2, b.bids = lb :: bs → b.asks = la :: la2 →
      createTopOfBook sym dgt b ts =
        some ⟨sym, "Okx", "TopOfBook", dgt ts, parseFloat la.price_level,
          parseFloat la.new_quantity, parseFloat lb.price_level,
          parseFloat lb.new_quantity⟩) := by
  obtain ⟨bids, asks⟩ := b
  refine ⟨?_, ?_⟩
  · cases bids <;> cases asks <;> simp [createTopOfBook]
  · intro lb bs la la2 hb ha
    dsimp only at hb ha
    subst hb
    subst ha
    rfl

/-- C3 (witness): the head-entry case at a concrete one-level book. -/
theorem claim3_top_of_book_witness :
    createTopOfBook "SKL" (fun _ => 0)
        ⟨[⟨"bid", "t", "100", "5"⟩], [⟨"offer", "t", "101", "3"⟩]⟩ "ts" =
      some ⟨"SKL", "Okx", "TopOfBook", 0, parseFloat "101", parseFloat "3",
        parseFloat "100", parseFloat "5"⟩ :=
  (claim3_top_of_book "SKL" (fun _ => 0)
    ⟨[⟨"bid", "t", "100", "5"⟩], [⟨"offer", "t", "101", "3"⟩]⟩ "ts").2
    ⟨"bid", "t", "100", "5"⟩ [] ⟨"offer", "t", "101", "3"⟩ [] rfl rfl

/-- C4 (counterexample): read with JavaScript numeric equality,
`quantity == 0` also covers the wire string "0.0"; `updateBook` only
recognises the literal string "0" (`new_quantity === "0"`), so a delta
with quantity "0.0" at a present price removes nothing. -/
theorem claim4_counterexample :
    parseFloat "0.0" = 0 ∧
    updateBook ⟨[⟨"bid", "t", "100", "5"⟩], []⟩
        ⟨"update", "BTC-USD", [⟨"bid", "t", "100", "0.0"⟩]⟩
      = ⟨[⟨"bid", "t", "100", "5"⟩], []⟩ := by
  decide

/-- C4 (amended): for a delta level whose quantity is the literal wire
string "0" (the only zero form the code recognises), a price absent from
the declared side leaves that side unchanged, and a price present
removes exactly its first occurrence, leaving all other entries
unchanged — on either side's update step. -/
theorem claim4_zero_quantity (side : List OkxMarketDepthLevel)
    (u : OkxMarketDepthLevel) (hq : u.new_quantity = "0") :
    ((∀ l ∈ side, l.price_level ≠ u.price_level) →
      bidStep side u = side ∧ askStep side u = side) ∧
    (∀ l1 e l2, side = l1 ++ e :: l2 → e.price_level = u.price_level →
      (∀ x ∈ l1, x.price_level ≠ u.price_level) →
      bidStep side u = l1 ++ l2 ∧ askStep side u = l1 ++ l2) := by
  constructor
  · intro h
    exact ⟨sideStep_absent_zero side u hq h, sideStep_absent_zero side u hq h⟩
  · intro l1 e l2 hs hp hl1
    subst hs
    exact ⟨sideStep_removal l1 e l2 u hq hp hl1,
      sideStep_removal l1 e l2 u hq hp hl1⟩

/-- C4 (witness): deleting price "99" from a two-level side removes
exactly that entry. -/
theorem claim4_zero_quantity_witness :
    bidStep [⟨"bid", "t", "100", "5"⟩, ⟨"bid", "t", "99", "1"⟩]
        ⟨"bid", "t", "99", "0"⟩ = [⟨"bid", "t", "100", "5"⟩] ∧
    askStep [⟨"bid", "t", "100", "5"⟩, ⟨"bid", "t", "99", "1"⟩]
        ⟨"bid", "t", "99", "0"⟩ = [⟨"bid", "t", "100", "5"⟩] :=
  (claim4_zero_quantity
      [⟨"bid", "t", "100", "5"⟩, ⟨"bid", "t", "99", "1"⟩]
      ⟨"bid", "t", "99", "0"⟩ rfl).2
    [⟨"bid", "t", "100", "5"⟩] ⟨"bid", "t", "99", "1"⟩ [] rfl rfl
    (by decide)

/-- C5 (code evaluation at the failing scenario): after a close event has
scheduled the 1-second reconnect, calling `stop()` does not cancel it —
the pending timer still fires and invokes `connect()`, i.e. a connection
attempt happens after deliberate shutdown, contrary to the claim. -/
theorem claim5_reconnect_after_stop :
    pubRun pubInit [.closeEvent, .stopCall] =
      { reconnectScheduled := true, stopped := true, connectCalls := 0 } ∧
    pubRun pubInit [.closeEvent, .stopCall, .reconnectTimerFire] =
      { reconnectScheduled := false, stopped := true, connectCalls := 1 } := by
  decide

/-- C6 (code evaluation at the failing scenario): on transport-open the
private connector's open handler sends the login message and the private
subscribe message back-to-back, without waiting for any success signal —
after the open event the subscribe has been sent while authentication
has not succeeded, contrary to the claim. -/
theorem claim6_subscribe_before_auth :
    privRun privInit [.transportOpen] =
      { authSucceeded := false, sent := [.login, .subscribeChannels] } := by
  decide

/-- C7: `placeOrders` maps the batch to wire payloads and chunks them via
`chunkArray` at limit 20: for every input order list the chunks
concatenate back to the mapped sequence in order (one payload per input
order, in input order), there are `⌈N / 20⌉` chunks, and each chunk has
at most 20 entries. -/
theorem claim7_chunking {O M : Type} (mapOrder : O → M) (orders : List O) :
    (placeOrdersBatches mapOrder orders).flatten = orders.map mapOrder ∧
    (orders.map mapOrder).length = orders.length ∧
    (placeOrdersBatches mapOrder orders).length = (orders.length + 19) / 20 ∧
    (placeOrdersBatches mapOrder orders).all
      (fun c => decide (c.length ≤ 20)) = true := by
  refine ⟨chunkArray_join 20 (orders.map mapOrder),
    List.length_map orders mapOrder, ?_, ?_⟩
  · rw [placeOrdersBatches, chunkArray_length20, List.length_map]
  · rw [List.all_eq_true]
    intro c hc
    rw [decide_eq_true_eq]
    exact chunkArray_sizes20 (orders.map mapOrder) c hc

/-- C8: the private connector's request signing matches the spec formula
`Base64(HMAC-SHA256(secret, timestamp ++ method ++ path ++ body))`:
`postRequest` signs `timestamp ++ "POST" ++ "/api/v5" ++ endpoint ++ body`
keyed by the credential secret, and `authenticate` signs the same shape
with method "GET", path "/users/self/verify" and empty body. -/
theorem claim8_signature {P : Type} (hmacSHA256 : String → String → List ℕ)
    (base64 : List ℕ → String) (stringify : P → String) (cred : Credential)
    (ts endpoint : String) (params : P) :
    (postRequest hmacSHA256 base64 stringify cred ts endpoint params).1.accessSign =
      specSignature hmacSHA256 base64 cred.secret ts "POST"
        ("/api/v5" ++ endpoint) (stringify params) ∧
    authenticateSign hmacSHA256 base64 cred ts =
      specSignature hmacSHA256 base64 cred.secret ts "GET"
        "/users/self/verify" "" := by
  constructor
  · rfl
  · unfold authenticateSign specSignature
    rw [String.append_empty]

/-- C9 (counterexample): an update whose side is neither "bid" nor
"offer" is silently dropped — `updateBook` filters it into neither side
list and returns the book unchanged, with no error signalled, contrary
to the claim that it is rejected as a malformed-message error. -/
theorem claim9_counterexample :
    updateBook ⟨[⟨"bid", "t", "100", "5"⟩], [⟨"offer", "t", "101", "3"⟩]⟩
        ⟨"update", "BTC-USD", [⟨"foo", "t", "102", "9"⟩]⟩
      = ⟨[⟨"bid", "t", "100", "5"⟩], [⟨"offer", "t", "101", "3"⟩]⟩ := by
  decide

/-- C9 (amended): a delta all of whose levels carry an unknown side value
leaves the book exactly unchanged: the two side filters drop the levels
and no error is raised — the embedded `updateBook` is total, with no
error result at all. -/
theorem claim9_unknown_side_dropped (b : Book) (e : OkxMarketDepthEvent)
    (ht : e.type ≠ "snapshot")
    (hu : ∀ u ∈ e.updates, u.side ≠ "bid" ∧ u.side ≠ "offer") :
    updateBook b e = b := by
  unfold updateBook
  rw [beq_eq_false_iff_ne.mpr ht]
  have hb : e.updates.filter (fun u => u.side == "bid") = [] :=
    List.filter_eq_nil_iff.mpr
      (fun u hm => by simpa using (hu u hm).1)
  have ha : e.updates.filter (fun u => u.side == "offer") = [] :=
    List.filter_eq_nil_iff.mpr
      (fun u hm => by simpa using (hu u hm).2)
  rw [hb, ha]
  rfl

/-- C9 (witness): a delta with side "ask" (unknown to the filters) is
dropped without touching the book. -/
theorem claim9_unknown_side_dropped_witness :
    updateBook ⟨[⟨"bid", "t", "100", "5"⟩], []⟩
        ⟨"update", "BTC-USD", [⟨"ask", "t", "50", "2"⟩]⟩
      = ⟨[⟨"bid", "t", "100", "5"⟩], []⟩ :=
  claim9_unknown_side_dropped ⟨[⟨"bid", "t", "100", "5"⟩], []⟩
    ⟨"update", "BTC-USD", [⟨"ask", "t", "50", "2"⟩]⟩
    (by decide) (by decide)

/-- C10: `getRequest` signs before appending the query: the signed
message is `timestamp ++ "GET" ++ "/api/v5" ++ route` with an empty
query string regardless of `params` (the whole header set is identical
to the no-params call), and the encoded params are appended to the
request URL only after signing. -/
theorem claim10_get_signs_empty_query
    (hmacSHA256 : String → String → List ℕ) (base64 : List ℕ → String)
    (encodeParams : List (String × String) → String) (cred : Credential)
    (ts route : String) (params : List (String × String)) :
    (getRequest hmacSHA256 base64 encodeParams cred ts route params).1 =
      (getRequest hmacSHA256 base64 encodeParams cred ts route []).1 ∧
    (getRequest hmacSHA256 base64 encodeParams cred ts route params).1.accessSign =
      specSignature hmacSHA256 base64 cred.secret ts "GET"
        ("/api/v5" ++ route) "" ∧
    (getRequest hmacSHA256 base64 encodeParams cred ts route params).2 =
      restUrl ++ ("/api/v5" ++ route) ++
        (if params.length > 0 then "?" ++ encodeParams params else "") := by
  exact ⟨rfl, rfl, rfl⟩

end SKLTrading

